import Mathlib

/-!
# flowgrind-stop: address normalisation and per-address error handling

A shallow embedding of `src/flowgrind_stop.c`.  A C string is the list of its
characters before the terminating NUL, one `Char` per C `char`, so `strlen` is
`List.length`.  Console output and the remote call are recorded as a trace of
events; the outcome of the XML-RPC library calls is an explicit input.
-/

set_option autoImplicit false

namespace Flowgrind

/-- A C string: the characters before the terminating NUL. -/
abbrev CStr := List Char

/-- Smallest value of a 32-bit `int`. -/
def INT_MIN : Int := -2147483648

/-- Largest value of a 32-bit `int`. -/
def INT_MAX : Int := 2147483647

/-- Constants that `config.h` and `common.h` supply, and the one point where the
C library is free to choose: what `atoi` yields for a value that does not fit
an `int` (ISO C leaves that case undefined).  `DEFAULT_LISTEN_PORT` initialises
the `int` variable `port`, so it is a value of that type.  `sprintf_clears_dest`
says whether `sprintf` stores a NUL at the start of its destination before it
formats, as the fortified `sprintf` of glibc does; it decides what line 95, whose
source and destination overlap (undefined in ISO C), leaves in `host`. -/
structure Build where
  DEFAULT_LISTEN_PORT : Int
  FLOWGRIND_VERSION : CStr
  atoi_overflow : Int → Int
  sprintf_clears_dest : Bool
  port_fits_int : INT_MIN ≤ DEFAULT_LISTEN_PORT ∧ DEFAULT_LISTEN_PORT ≤ INT_MAX

/-- Fault left in an `xmlrpc_env`: `fault_string` and `fault_code`. -/
structure Fault where
  fault_string : CStr
  fault_code : Int
  deriving DecidableEq, Repr

/-- What the XML-RPC library does during one `stop_flows`: `xmlrpc_client_create`
faults, or the client is created and `xmlrpc_client_call2f` faults, or both
succeed. -/
inductive Rpc where
  | create_fault (f : Fault)
  | call_fault (f : Fault)
  | ok
  deriving DecidableEq, Repr

/-- Observable actions: a line on standard output, a line on standard error, and
`xmlrpc_client_call2f(&env, client, url, method, ..., "flow_id", flow_id)`. -/
inductive Event where
  | stdout (text : CStr)
  | stderr (text : CStr)
  | call (url : CStr) (method : CStr) (flow_id : Int)
  deriving DecidableEq, Repr

/-! ## C library functions -/

/-- `strchr(s, c)` as the offset of the first `c` in `s`, `none` for a null pointer. -/
def strchr : CStr → Char → Option Nat
  | [], _ => none
  | x :: xs, c => if x = c then some 0 else (strchr xs c).map (· + 1)

/-- `isspace` in the C locale. -/
def isspace (c : Char) : Bool :=
  c = ' ' || c = '\t' || c = '\n' || c = '\x0b' || c = '\x0c' || c = '\r'

/-- `isdigit`. -/
def isdigit (c : Char) : Bool := '0'.toNat ≤ c.toNat && c.toNat ≤ '9'.toNat

/-- Value of the longest leading run of decimal digits, continuing from `acc`. -/
def digits_value : Nat → CStr → Nat
  | acc, [] => acc
  | acc, c :: cs =>
    if isdigit c then digits_value (acc * 10 + (c.toNat - '0'.toNat)) cs else acc

/-- The integer `strtol(s, NULL, 10)` reads, before any range limit: white space
is skipped, one sign is taken, then the longest run of digits; `0` when there is
no digit. -/
def strtol_value (s : CStr) : Int :=
  match s.dropWhile isspace with
  | [] => 0
  | c :: t =>
    if c = '-' then - (digits_value 0 t : Int)
    else if c = '+' then (digits_value 0 t : Int)
    else (digits_value 0 (c :: t) : Int)

/-- `atoi(s)`: the value `strtol` reads when it fits an `int`; otherwise whatever
the platform yields. -/
def atoi (b : Build) (s : CStr) : Int :=
  if INT_MIN ≤ strtol_value s ∧ strtol_value s ≤ INT_MAX then strtol_value s
  else b.atoi_overflow (strtol_value s)

/-- The conversion `%d` of `printf`. -/
def fmt_d : Int → CStr
  | Int.ofNat n => Nat.toDigits 10 n
  | Int.negSucc n => '-' :: Nat.toDigits 10 (n + 1)

/-! ## `stop_flows` -/

/-- Lines 73-93 of `stop_flows`: the length check, the split at the first `':'`
and the port check.  The result is the error line written to standard error, or
the content of `host` after `*p = 0` together with `port`. -/
def split_address (b : Build) (address : CStr) : Except CStr (CStr × Int) :=
  if address.length > 1000 - 50 then
    .error ("Address too long: ".toList ++ address ++ "\n".toList)
  else
    match strchr address ':' with
    | some p =>
      if p = 0 then
        .error ("Error, no address given: ".toList ++ address ++ "\n".toList)
      else
        let port := atoi b (address.drop (p + 1))
        if port < 1 ∨ port > 65535 then
          .error ("Error, invalid port given: ".toList ++ address ++ "\n".toList)
        else
          .ok (address.take p, port)
    | none => .ok (address, b.DEFAULT_LISTEN_PORT)

/-- Line 94: `sprintf(url, "http://%s:%d/RPC2", host, port)`. -/
def sprintf_url (host : CStr) (port : Int) : CStr :=
  "http://".toList ++ host ++ ":".toList ++ fmt_d port ++ "/RPC2".toList

/-- Line 95: `sprintf(host, "%s:%d", host, port)`, the display label.  Source and
destination are the same buffer.  A `sprintf` that writes in place leaves `host`,
`":"` and the port; one that clears the destination first reads an empty `%s`
argument and leaves `":"` and the port. -/
def sprintf_host (b : Build) (host : CStr) (port : Int) : CStr :=
  (if b.sprintf_clears_dest then [] else host) ++ ":".toList ++ fmt_d port

/-- The line of the `cleanup` block: "Could not stop flows on %s: %s (%d)\n". -/
def could_not_stop (host : CStr) (f : Fault) : CStr :=
  "Could not stop flows on ".toList ++ host ++ ": ".toList ++ f.fault_string
    ++ " (".toList ++ fmt_d f.fault_code ++ ")\n".toList

/-- Lines 99-117: create the client, call `stop_flow` with flow id `-1` unless
creating the client faulted, and report a fault. -/
def request (rpc : Rpc) (host url : CStr) : List Event :=
  match rpc with
  | .create_fault f => [.stderr (could_not_stop host f)]
  | .call_fault f => [.call url "stop_flow".toList (-1), .stderr (could_not_stop host f)]
  | .ok => [.call url "stop_flow".toList (-1)]

/-- The function `stop_flows(address)`. -/
def stop_flows (b : Build) (rpc : Rpc) (address : CStr) : List Event :=
  match split_address b address with
  | .error line => [.stderr line]
  | .ok (host, port) =>
    .stdout ("Stopping all flows on ".toList ++ sprintf_host b host port ++ "\n".toList)
      :: request rpc (sprintf_host b host port) (sprintf_url host port)

/-! ## `main` -/

/-- Exit status `EXIT_SUCCESS`. -/
def EXIT_SUCCESS : Int := 0

/-- Exit status `EXIT_FAILURE`. -/
def EXIT_FAILURE : Int := 1

/-- Values `getopt_long` returns for the option table of `main`: `'h'`, `'v'`, `'?'`. -/
inductive Opt where
  | h
  | v
  | unknown
  deriving DecidableEq, Repr

/-- A long option `--name` or `--name=value` against `long_opt`: a name matches
an entry it abbreviates; no match, a match of both entries, or a value for an
entry declared `no_argument` is an error. -/
def long_option (name : CStr) (has_value : Bool) : Opt :=
  let mh := name.isPrefixOf "help".toList
  let mv := name.isPrefixOf "version".toList
  if mh && mv then .unknown
  else if has_value then .unknown
  else if mh then .h
  else if mv then .v
  else .unknown

/-- One element of `argv` as `getopt_long` sees it with `short_opt = "hv"`:
`none` for a non-option (also `"-"` and the empty string), otherwise the value
returned for it.  The element `"--"` is handled by `getopt_scan`. -/
def getopt_element (arg : CStr) : Option Opt :=
  match arg with
  | '-' :: '-' :: rest =>
    some (long_option (rest.takeWhile (· ≠ '=')) (rest.any (· = '=')))
  | '-' :: c :: _ =>
    some (if c = 'h' then .h else if c = 'v' then .v else .unknown)
  | _ => none

/-- The loop `while ((ch = getopt_long(...)) != -1)` of `main`, in the default
permuting mode of `getopt_long`: every case of the `switch` leaves the program,
so the scan ends at the first option element, and without one the remaining
arguments `argv[optind..]` are the non-options in their order, `"--"` ending the
options. -/
def getopt_scan : List CStr → Opt ⊕ List CStr
  | [] => .inr []
  | a :: rest =>
    if a = "--".toList then .inr rest
    else
      match getopt_element a with
      | some o => .inl o
      | none =>
        match getopt_scan rest with
        | .inl o => .inl o
        | .inr addrs => .inr (a :: addrs)

/-- The value of `progname` after lines 124-133: the text after the last `'/'`
of `argv[0]`, cut to 49 characters; the initial value when `argc` is 0. -/
def progname (argv : List CStr) : CStr :=
  match argv with
  | [] => "flowgrind-stop".toList
  | a :: _ => ((a.reverse.takeWhile (· ≠ '/')).reverse).take 49

/-- Text printed by `usage`. -/
def usage_text (prog : CStr) : CStr :=
  "Usage: ".toList ++ prog ++ " [OPTION]... [ADDRESS]...\n".toList
    ++ "Stop all flows on the daemons running at the given addresses.\n\n".toList
    ++ "Mandatory arguments to long options are mandatory for short options too.\n".toList
    ++ "  -h, --help     display this help and exit\n".toList
    ++ "  -v, --version  print version information and exit\n\n".toList
    ++ "Example:\n".toList
    ++ "   ".toList ++ prog ++ " localhost 127.2.3.4:5999 example.com\n".toList

/-- The loop `for (int i = optind; i < argc; i++) stop_flows(argv[i])`; `env i`
is what the XML-RPC library does during the `i`-th iteration. -/
def stop_all (b : Build) (env : Nat → Rpc) : Nat → List CStr → List Event
  | _, [] => []
  | i, a :: rest => stop_flows b (env i) a ++ stop_all b env (i + 1) rest

/-- The function `main`: the trace and the exit status.  The diagnostic that
`getopt_long` itself prints for an unknown option is not part of the trace. -/
def main (b : Build) (env : Nat → Rpc) (argv : List CStr) : List Event × Int :=
  match getopt_scan (argv.drop 1) with
  | .inl .h => ([.stderr (usage_text (progname argv))], EXIT_SUCCESS)
  | .inl .v =>
    ([.stderr (progname argv ++ " version: ".toList ++ b.FLOWGRIND_VERSION ++ "\n".toList)],
      EXIT_SUCCESS)
  | .inl .unknown =>
    ([.stderr ("Try '".toList ++ progname argv ++ " -h' for more information\n".toList)],
      EXIT_FAILURE)
  | .inr addrs => (stop_all b env 0 addrs, 0)

/-- A build with the default port 5999 whose `atoi` keeps the low 32 bits of an
out-of-range value and whose `sprintf` writes in place. -/
def sample_build : Build where
  DEFAULT_LISTEN_PORT := 5999
  FLOWGRIND_VERSION := "0.7.5".toList
  atoi_overflow := fun v => (v + 2147483648) % 4294967296 - 2147483648
  sprintf_clears_dest := false
  port_fits_int := by decide

/-- The same build compiled with a fortified `sprintf`, which clears the
destination before it formats. -/
def hardened_build : Build where
  DEFAULT_LISTEN_PORT := 5999
  FLOWGRIND_VERSION := "0.7.5".toList
  atoi_overflow := fun v => (v + 2147483648) % 4294967296 - 2147483648
  sprintf_clears_dest := true
  port_fits_int := by decide

/-- The remote calls in a trace. -/
def calls_of (t : List Event) : List Event :=
  t.filter fun e => match e with
    | .call _ _ _ => true
    | _ => false

/-! ## Lemmas on the C library model -/

theorem strchr_not_mem (s : CStr) (c : Char) (h : c ∉ s) : strchr s c = none := by
  induction s with
  | nil => rfl
  | cons x xs ih =>
    have hx : ¬ x = c := fun e => h (by simp [e])
    have hxs : c ∉ xs := fun m => h (List.mem_cons_of_mem _ m)
    simp [strchr, hx, ih hxs]

theorem strchr_append (s t : CStr) (c : Char) (h : c ∉ s) :
    strchr (s ++ c :: t) c = some s.length := by
  induction s with
  | nil => simp [strchr]
  | cons x xs ih =>
    have hx : ¬ x = c := fun e => h (by simp [e])
    have hxs : c ∉ xs := fun m => h (List.mem_cons_of_mem _ m)
    simp [strchr, hx, ih hxs]

theorem strchr_some (s : CStr) (c : Char) (p : Nat) (h : strchr s c = some p) :
    c ∉ s.take p ∧ s = s.take p ++ c :: s.drop (p + 1) := by
  induction s generalizing p with
  | nil => simp [strchr] at h
  | cons x xs ih =>
    by_cases hx : x = c
    · simp [strchr, hx] at h
      subst h
      simp [hx]
    · simp only [strchr, hx, if_false, Option.map_eq_some'] at h
      obtain ⟨q, hq, rfl⟩ := h
      obtain ⟨h1, h2⟩ := ih q hq
      refine ⟨?_, ?_⟩
      · simp only [List.take_succ_cons, List.mem_cons, not_or]
        exact ⟨fun e => hx e.symm, h1⟩
      · simp only [List.take_succ_cons, List.drop_succ_cons, List.cons_append]
        rw [← h2]

theorem digitChar_spec : ∀ d, d < 10 →
    isdigit (Nat.digitChar d) = true ∧ (Nat.digitChar d).toNat - '0'.toNat = d := by
  decide

theorem digits_value_toDigitsCore (fuel n : Nat) (ds : CStr) (h : n < fuel) :
    digits_value 0 (Nat.toDigitsCore 10 fuel n ds) = digits_value n ds := by
  induction fuel generalizing n ds with
  | zero => omega
  | succ fuel ih =>
    obtain ⟨hd, hv⟩ := digitChar_spec (n % 10) (Nat.mod_lt _ (by decide))
    by_cases hq : n / 10 = 0
    · have hn : n % 10 = n := Nat.mod_eq_of_lt (by omega)
      simp only [Nat.toDigitsCore, hq, if_true, digits_value, hd, hv]
      simp [hn]
    · simp only [Nat.toDigitsCore, hq, if_false]
      rw [ih (n / 10) _ (by omega)]
      simp only [digits_value, hd, hv, if_true]
      congr 1
      omega

theorem toDigitsCore_head (fuel n : Nat) (ds : CStr) (h : n < fuel) :
    ∃ c t, Nat.toDigitsCore 10 fuel n ds = c :: t ∧ isdigit c = true := by
  induction fuel generalizing n ds with
  | zero => omega
  | succ fuel ih =>
    obtain ⟨hd, _⟩ := digitChar_spec (n % 10) (Nat.mod_lt _ (by decide))
    by_cases hq : n / 10 = 0
    · exact ⟨_, ds, by simp [Nat.toDigitsCore, hq], hd⟩
    · simp only [Nat.toDigitsCore, hq, if_false]
      exact ih (n / 10) _ (by omega)

theorem isdigit_not_special (c : Char) (h : isdigit c = true) :
    isspace c = false ∧ c ≠ '-' ∧ c ≠ '+' := by
  refine ⟨?_, ?_, ?_⟩
  · cases hs : isspace c with
    | false => rfl
    | true =>
      simp only [isspace, Bool.or_eq_true, decide_eq_true_eq] at hs
      rcases hs with ((((rfl | rfl) | rfl) | rfl) | rfl) | rfl <;> simp [isdigit] at h
  · rintro rfl; simp [isdigit] at h
  · rintro rfl; simp [isdigit] at h

theorem strtol_value_toDigits (n : Nat) : strtol_value (Nat.toDigits 10 n) = (n : Int) := by
  obtain ⟨c, t, hct, hc⟩ := toDigitsCore_head (n + 1) n [] (by omega)
  obtain ⟨h1, h2, h3⟩ := isdigit_not_special c hc
  have hv := digits_value_toDigitsCore (n + 1) n [] (by omega)
  unfold Nat.toDigits
  rw [hct] at hv
  simp only [strtol_value, hct, List.dropWhile, h1, h2, h3, if_false]
  rw [hv]
  simp [digits_value]

theorem atoi_toDigits (b : Build) (p : Nat) (hp : p ≤ 65535) :
    atoi b (Nat.toDigits 10 p) = (p : Int) := by
  unfold atoi
  rw [strtol_value_toDigits]
  have h : INT_MIN ≤ (p : Int) ∧ (p : Int) ≤ INT_MAX := by
    simp only [INT_MIN, INT_MAX]; omega
  simp [h]

theorem fmt_d_length_int (v : Int) (h : INT_MIN ≤ v ∧ v ≤ INT_MAX) : (fmt_d v).length ≤ 11 := by
  cases v with
  | ofNat n =>
    have hn : n < 10 ^ 10 := by
      have := h.2
      simp only [INT_MAX, Int.ofNat_eq_coe] at this
      omega
    have := Nat.toDigitsCore_length 10 (by decide) (n + 1) n 10 hn (by decide)
    simp only [fmt_d, Nat.toDigits]
    omega
  | negSucc n =>
    have hn : n + 1 < 10 ^ 10 := by
      have := h.1
      simp only [INT_MIN, Int.negSucc_eq] at this
      omega
    have := Nat.toDigitsCore_length 10 (by decide) (n + 1 + 1) (n + 1) 10 hn (by decide)
    simp only [fmt_d, Nat.toDigits, List.length_cons]
    omega

/-- What `split_address` has established when it lets an address through. -/
theorem split_address_ok (b : Build) (address host : CStr) (port : Int)
    (h : split_address b address = .ok (host, port)) :
    address.length ≤ 950 ∧
      ((':' ∉ address ∧ host = address ∧ port = b.DEFAULT_LISTEN_PORT) ∨
        (∃ ptxt, address = host ++ ':' :: ptxt ∧ host ≠ [] ∧ ':' ∉ host ∧
          port = atoi b ptxt ∧ 1 ≤ port ∧ port ≤ 65535)) := by
  unfold split_address at h
  split at h
  · cases h
  · rename_i hlen
    refine ⟨by omega, ?_⟩
    split at h
    · rename_i p hp
      obtain ⟨hnot, hsplit⟩ := strchr_some address ':' p hp
      split at h
      · cases h
      · rename_i hp0
        simp only at h
        split at h
        · cases h
        · rename_i hport
          simp only [Except.ok.injEq, Prod.mk.injEq] at h
          obtain ⟨rfl, rfl⟩ := h
          refine Or.inr ⟨address.drop (p + 1), hsplit, ?_, hnot, rfl, by omega, by omega⟩
          intro hnil
          rw [hnil] at hsplit
          rw [hsplit] at hp
          simp [strchr] at hp
          exact hp0 hp.symm
    · rename_i hnone
      simp only [Except.ok.injEq, Prod.mk.injEq] at h
      obtain ⟨rfl, rfl⟩ := h
      refine Or.inl ⟨?_, rfl, rfl⟩
      intro hmem
      obtain ⟨s, t, rfl⟩ := List.append_of_mem hmem
      clear hmem hlen
      induction s with
      | nil => simp [strchr] at hnone
      | cons x xs ih =>
        by_cases hx : x = ':'
        · simp [strchr, hx] at hnone
        · simp only [List.cons_append, strchr, hx, if_false, Option.map_eq_none'] at hnone
          exact ih hnone

/-- Every address but the empty one is let through with a non-empty host only. -/
theorem split_address_host_ne (b : Build) (address host : CStr) (port : Int)
    (hne : address ≠ []) (h : split_address b address = .ok (host, port)) : host ≠ [] := by
  rcases (split_address_ok b address host port h).2 with ⟨_, rfl, _⟩ | ⟨_, _, hh, _⟩
  · exact hne
  · exact hh

/-- The split of `host ++ ":" ++ ptxt` for a non-empty `host` without `':'`. -/
theorem split_address_colon (b : Build) (host ptxt : CStr) (hne : host ≠ [])
    (hcolon : ':' ∉ host) (hlen : (host ++ ':' :: ptxt).length ≤ 950) :
    split_address b (host ++ ':' :: ptxt) =
      if atoi b ptxt < 1 ∨ atoi b ptxt > 65535 then
        .error ("Error, invalid port given: ".toList ++ (host ++ ':' :: ptxt) ++ "\n".toList)
      else .ok (host, atoi b ptxt) := by
  have h1 : ¬ (host ++ ':' :: ptxt).length > 1000 - 50 := by omega
  have h2 : host.length ≠ 0 := fun h => hne (List.length_eq_zero.mp h)
  have h3 : List.drop (host.length + 1) (host ++ ':' :: ptxt) = ptxt := by
    rw [List.drop_append_eq_append_drop]
    simp
  have h4 : List.take host.length (host ++ ':' :: ptxt) = host := by
    simp
  simp only [split_address, h1, if_false, strchr_append host ptxt ':' hcolon, h2, h3, h4]

/-- The length check of line 73. -/
theorem split_address_too_long (b : Build) (address : CStr) (h : 950 < address.length) :
    split_address b address = .error ("Address too long: ".toList ++ address ++ "\n".toList) := by
  have h1 : address.length > 1000 - 50 := by omega
  simp only [split_address, h1, if_true]

theorem stop_all_append (b : Build) (env : Nat → Rpc) (i : Nat) (xs ys : List CStr) :
    stop_all b env i (xs ++ ys) = stop_all b env i xs ++ stop_all b env (i + xs.length) ys := by
  induction xs generalizing i with
  | nil => simp [stop_all]
  | cons x xs ih =>
    have hi : i + 1 + xs.length = i + (xs.length + 1) := by omega
    show stop_flows b (env i) x ++ stop_all b env (i + 1) (xs ++ ys) = _
    rw [ih (i + 1), hi]
    simp only [stop_all, List.append_assoc, List.length_cons]

theorem stop_all_join (b : Build) (env : Nat → Rpc) (k : Nat) (addrs : List CStr) :
    stop_all b env k addrs =
      (List.zipWith (fun i a => stop_flows b (env i) a)
        (List.range' k addrs.length) addrs).flatten := by
  induction addrs generalizing k with
  | nil => simp [stop_all]
  | cons a rest ih =>
    simp only [stop_all, List.length_cons, List.range'_succ, List.zipWith_cons_cons,
      List.flatten_cons, ih]

theorem calls_of_ok (b : Build) (rpc : Rpc) (a host : CStr) (port : Int)
    (hs : split_address b a = .ok (host, port)) (hc : ∀ g, rpc ≠ .create_fault g) :
    calls_of (stop_flows b rpc a) = [.call (sprintf_url host port) "stop_flow".toList (-1)] := by
  cases rpc with
  | create_fault g => exact absurd rfl (hc g)
  | call_fault g => simp [stop_flows, hs, request, calls_of]
  | ok => simp [stop_flows, hs, request, calls_of]

theorem calls_of_none (b : Build) (rpc : Rpc) (a : CStr)
    (h : (∃ line, split_address b a = .error line) ∨ ∃ g, rpc = .create_fault g) :
    calls_of (stop_flows b rpc a) = [] := by
  cases hs : split_address b a with
  | error line => simp [stop_flows, hs, calls_of]
  | ok hp =>
    obtain ⟨host, port⟩ := hp
    rcases h with ⟨line, hl⟩ | ⟨g, rfl⟩
    · rw [hs] at hl; cases hl
    · simp [stop_flows, hs, request, calls_of]

theorem calls_of_append (s t : List Event) : calls_of (s ++ t) = calls_of s ++ calls_of t := by
  simp [calls_of]

/-- Which calls `stop_flows` issues does not depend on whether the call faults. -/
theorem calls_of_outcome (b : Build) (rpc : Rpc) (a : CStr)
    (hc : ∀ g, rpc ≠ .create_fault g) :
    calls_of (stop_flows b rpc a) = calls_of (stop_flows b .ok a) := by
  cases hs : split_address b a with
  | error line => simp [stop_flows, hs]
  | ok hp =>
    obtain ⟨host, port⟩ := hp
    rw [calls_of_ok b rpc a host port hs hc,
      calls_of_ok b .ok a host port hs (fun g e => by cases e)]

theorem calls_of_stop_all (b : Build) (env : Nat → Rpc) (k : Nat) (addrs : List CStr)
    (henv : ∀ i g, env i ≠ .create_fault g) :
    calls_of (stop_all b env k addrs) =
      (addrs.map fun a => calls_of (stop_flows b .ok a)).flatten := by
  induction addrs generalizing k with
  | nil => simp [stop_all, calls_of]
  | cons a rest ih =>
    simp only [stop_all, calls_of_append, List.map_cons, List.flatten_cons, ih,
      calls_of_outcome b (env k) a (henv k)]

/-- The split of an address without `':'` that is within the length limit. -/
theorem split_address_no_colon (b : Build) (address : CStr) (hcolon : ':' ∉ address)
    (hlen : address.length ≤ 950) :
    split_address b address = .ok (address, b.DEFAULT_LISTEN_PORT) := by
  have h1 : ¬ address.length > 1000 - 50 := by omega
  simp only [split_address, h1, if_false, strchr_not_mem address ':' hcolon]

theorem main_addresses (b : Build) (env : Nat → Rpc) (argv addrs : List CStr)
    (h : getopt_scan (argv.drop 1) = .inr addrs) :
    main b env argv = (stop_all b env 0 addrs, 0) := by
  simp only [main, h]

/-! ## The claims -/

/-- C1 (counterexample): the address "h:1" has a non-empty host and the port 1,
yet when `xmlrpc_client_create` faults the trace is the status line and the fault
report, and no remote call is issued. -/
theorem stop_flows_create_fault_no_call :
    stop_flows sample_build (.create_fault ⟨"Out of memory".toList, -500⟩) "h:1".toList =
        [.stdout "Stopping all flows on h:1\n".toList,
         .stderr "Could not stop flows on h:1: Out of memory (-500)\n".toList] ∧
      calls_of (stop_flows sample_build (.create_fault ⟨"Out of memory".toList, -500⟩)
        "h:1".toList) = [] := by
  decide

/-- C1 (amended): for a non-empty `host` without `':'` and a port `p` in
[1, 65535] written in decimal, the address `host:p` being within the length
limit, `stop_flows` splits the address into that host and that port and builds
the URL `http://host:p/RPC2`; after the status line it issues exactly one remote
call, to that URL, unless creating the XML-RPC client faults, and then it issues
none.  The label in the status and fault lines is what line 95 leaves in
`host`. -/
theorem stop_flows_host_port (b : Build) (host : CStr) (p : Nat)
    (hne : host ≠ []) (hcolon : ':' ∉ host) (hp : 1 ≤ p ∧ p ≤ 65535)
    (hlen : (host ++ ':' :: Nat.toDigits 10 p).length ≤ 950) :
    split_address b (host ++ ':' :: Nat.toDigits 10 p) = .ok (host, (p : Int)) ∧
      sprintf_url host p =
        "http://".toList ++ host ++ ':' :: Nat.toDigits 10 p ++ "/RPC2".toList ∧
      stop_flows b .ok (host ++ ':' :: Nat.toDigits 10 p) =
        [.stdout ("Stopping all flows on ".toList ++ sprintf_host b host p ++ "\n".toList),
         .call ("http://".toList ++ host ++ ':' :: Nat.toDigits 10 p ++ "/RPC2".toList)
            "stop_flow".toList (-1)] ∧
      (∀ f, stop_flows b (.call_fault f) (host ++ ':' :: Nat.toDigits 10 p) =
        [.stdout ("Stopping all flows on ".toList ++ sprintf_host b host p ++ "\n".toList),
         .call ("http://".toList ++ host ++ ':' :: Nat.toDigits 10 p ++ "/RPC2".toList)
            "stop_flow".toList (-1),
         .stderr (could_not_stop (sprintf_host b host p) f)]) ∧
      (∀ f, stop_flows b (.create_fault f) (host ++ ':' :: Nat.toDigits 10 p) =
        [.stdout ("Stopping all flows on ".toList ++ sprintf_host b host p ++ "\n".toList),
         .stderr (could_not_stop (sprintf_host b host p) f)]) := by
  have hat : atoi b (Nat.toDigits 10 p) = (p : Int) := atoi_toDigits b p hp.2
  have hs : split_address b (host ++ ':' :: Nat.toDigits 10 p) = .ok (host, (p : Int)) := by
    rw [split_address_colon b host _ hne hcolon hlen, hat]
    have : ¬ ((p : Int) < 1 ∨ (p : Int) > 65535) := by omega
    rw [if_neg this]
  have hu : sprintf_url host p =
      "http://".toList ++ host ++ ':' :: Nat.toDigits 10 p ++ "/RPC2".toList := by
    simp [sprintf_url, fmt_d]
  refine ⟨hs, hu, ?_, ?_, ?_⟩
  · simp only [stop_flows, hs, request, hu]
  · intro f
    simp only [stop_flows, hs, request, hu]
  · intro f
    simp only [stop_flows, hs, request, hu]

/-- C1 (witness): the address "10.0.0.1:9000". -/
theorem stop_flows_host_port_witness :
    ("10.0.0.1".toList ≠ [] ∧ ':' ∉ "10.0.0.1".toList ∧ (1 ≤ 9000 ∧ 9000 ≤ 65535) ∧
        ("10.0.0.1".toList ++ ':' :: Nat.toDigits 10 9000).length ≤ 950) ∧
      stop_flows sample_build .ok ("10.0.0.1".toList ++ ':' :: Nat.toDigits 10 9000) =
        [.stdout ("Stopping all flows on ".toList
            ++ sprintf_host sample_build "10.0.0.1".toList (9000 : Nat) ++ "\n".toList),
         .call ("http://".toList ++ "10.0.0.1".toList ++ ':' :: Nat.toDigits 10 9000
            ++ "/RPC2".toList) "stop_flow".toList (-1)] :=
  ⟨by decide,
    (stop_flows_host_port sample_build "10.0.0.1".toList 9000 (by decide) (by decide)
      (by decide) (by decide)).2.2.1⟩

/-- C2 (failing input): the address "example.org" in a build whose `sprintf`
clears the destination first.  The port is the default one and the URL is built
from the address, but line 95 reads `host` while writing it and leaves ":5999":
the status line names no host. -/
theorem stop_flows_default_port_label :
    split_address hardened_build "example.org".toList = .ok ("example.org".toList, 5999) ∧
      sprintf_host hardened_build "example.org".toList 5999 = ":5999".toList ∧
      stop_flows hardened_build .ok "example.org".toList =
        [.stdout "Stopping all flows on :5999\n".toList,
         .call "http://example.org:5999/RPC2".toList "stop_flow".toList (-1)] :=
  ⟨rfl, by decide, by decide⟩

/-- C3 (counterexample): the port text "80abc" is not a number, yet `atoi` reads
80 from it and the call is issued; and for ":x" the port text "x" is not a number,
yet the error is "no address given". -/
theorem stop_flows_port_text_counterexample :
    stop_flows sample_build .ok "h:80abc".toList =
        [.stdout "Stopping all flows on h:80\n".toList,
         .call "http://h:80/RPC2".toList "stop_flow".toList (-1)] ∧
      stop_flows sample_build .ok ":x".toList =
        [.stderr "Error, no address given: :x\n".toList] := by
  decide

/-- C3 (amended): for an address within the length limit whose first `':'`
follows a non-empty host, when the integer that `atoi` reads at the start of the
port text (white space, an optional sign, the longest run of digits; 0 without a
digit) fits an `int` and is outside [1, 65535], `stop_flows` reports "invalid
port given" and issues no remote call. -/
theorem stop_flows_invalid_port (b : Build) (rpc : Rpc) (host ptxt : CStr)
    (hne : host ≠ []) (hcolon : ':' ∉ host) (hlen : (host ++ ':' :: ptxt).length ≤ 950)
    (hfit : INT_MIN ≤ strtol_value ptxt ∧ strtol_value ptxt ≤ INT_MAX)
    (hout : strtol_value ptxt < 1 ∨ 65535 < strtol_value ptxt) :
    stop_flows b rpc (host ++ ':' :: ptxt) =
        [.stderr ("Error, invalid port given: ".toList ++ (host ++ ':' :: ptxt)
          ++ "\n".toList)] ∧
      calls_of (stop_flows b rpc (host ++ ':' :: ptxt)) = [] := by
  have hat : atoi b ptxt = strtol_value ptxt := by
    unfold atoi
    rw [if_pos hfit]
  have hs := split_address_colon b host ptxt hne hcolon hlen
  rw [hat, if_pos (by omega)] at hs
  simp only [stop_flows, hs, calls_of, List.filter_cons, List.filter_nil]
  exact ⟨trivial, by simp⟩

/-- C3 (witness): the address "h:70000". -/
theorem stop_flows_invalid_port_witness :
    ("h".toList ≠ [] ∧ ':' ∉ "h".toList ∧ ("h".toList ++ ':' :: "70000".toList).length ≤ 950 ∧
        (INT_MIN ≤ strtol_value "70000".toList ∧ strtol_value "70000".toList ≤ INT_MAX) ∧
        (strtol_value "70000".toList < 1 ∨ 65535 < strtol_value "70000".toList)) ∧
      stop_flows sample_build .ok ("h".toList ++ ':' :: "70000".toList) =
        [.stderr ("Error, invalid port given: ".toList ++ ("h".toList ++ ':' :: "70000".toList)
          ++ "\n".toList)] :=
  ⟨by decide,
    (stop_flows_invalid_port sample_build .ok "h".toList "70000".toList (by decide)
      (by decide) (by decide) (by decide) (by decide)).1⟩

/-- C4 (failing input): for the empty address no `':'` is found, so the check for
an empty host is not reached: `host` stays empty, the port is the default one,
and the stop request is sent to `http://:PORT/RPC2`. -/
theorem stop_flows_empty_address (b : Build) :
    split_address b [] = .ok ([], b.DEFAULT_LISTEN_PORT) ∧
      stop_flows b .ok [] =
        [.stdout ("Stopping all flows on :".toList ++ fmt_d b.DEFAULT_LISTEN_PORT
            ++ "\n".toList),
         .call ("http://:".toList ++ fmt_d b.DEFAULT_LISTEN_PORT ++ "/RPC2".toList)
            "stop_flow".toList (-1)] := by
  refine ⟨rfl, ?_⟩
  cases hc : b.sprintf_clears_dest <;>
    simp [stop_flows, split_address, strchr, request, sprintf_host, sprintf_url, hc]

/-- C5 (counterexample): an address of 951 characters that starts with `':'` is
reported as too long, not as "no address given". -/
theorem stop_flows_colon_too_long :
    stop_flows sample_build .ok (':' :: List.replicate 950 'a') =
      [.stderr ("Address too long: ".toList ++ (':' :: List.replicate 950 'a')
        ++ "\n".toList)] := by
  have h : 950 < (':' :: List.replicate 950 'a').length := by
    simp only [List.length_cons, List.length_replicate]; omega
  simp only [stop_flows, split_address_too_long sample_build _ h]

/-- C5 (amended): an address whose first character is `':'` never leads to a
remote call; within the length limit of 950 characters the error is "no address
given", whatever follows the colon, and beyond it the error is "Address too
long". -/
theorem stop_flows_empty_host (b : Build) (rpc : Rpc) (rest : CStr) :
    stop_flows b rpc (':' :: rest) =
        [.stderr (if (':' :: rest).length ≤ 950
          then "Error, no address given: ".toList ++ (':' :: rest) ++ "\n".toList
          else "Address too long: ".toList ++ (':' :: rest) ++ "\n".toList)] ∧
      calls_of (stop_flows b rpc (':' :: rest)) = [] := by
  have hs : split_address b (':' :: rest) =
      .error (if (':' :: rest).length ≤ 950
          then "Error, no address given: ".toList ++ (':' :: rest) ++ "\n".toList
          else "Address too long: ".toList ++ (':' :: rest) ++ "\n".toList) := by
    by_cases h : (':' :: rest).length ≤ 950
    · have h1 : ¬ (':' :: rest).length > 1000 - 50 := by omega
      simp only [split_address, h1, if_false, strchr, if_true, h]
    · have h1 : (':' :: rest).length > 1000 - 50 := by omega
      simp only [split_address, h1, if_true, h, if_false]
  simp only [stop_flows, hs, calls_of, List.filter_cons, List.filter_nil]
  exact ⟨trivial, by simp⟩

/-- C9 (counterexample): a host of 950 characters followed by a bare `':'` is
reported as too long, not as an invalid port. -/
theorem stop_flows_bare_colon_too_long :
    stop_flows sample_build .ok (List.replicate 950 'a' ++ [':']) =
      [.stderr ("Address too long: ".toList ++ (List.replicate 950 'a' ++ [':'])
        ++ "\n".toList)] := by
  have h : 950 < (List.replicate 950 'a' ++ [':']).length := by
    simp only [List.length_append, List.length_replicate, List.length_singleton]; omega
  simp only [stop_flows, split_address_too_long sample_build _ h]

/-- C9 (amended): for a non-empty host without `':'` of at most 949 characters,
so that the address `host:` is within the length limit, `stop_flows` reports
"invalid port given"; it does not fall back to the default port and issues no
remote call. -/
theorem stop_flows_bare_colon (b : Build) (rpc : Rpc) (host : CStr)
    (hne : host ≠ []) (hcolon : ':' ∉ host) (hlen : host.length ≤ 949) :
    split_address b (host ++ [':']) =
        .error ("Error, invalid port given: ".toList ++ (host ++ [':']) ++ "\n".toList) ∧
      stop_flows b rpc (host ++ [':']) =
        [.stderr ("Error, invalid port given: ".toList ++ (host ++ [':']) ++ "\n".toList)] ∧
      calls_of (stop_flows b rpc (host ++ [':'])) = [] := by
  have hat : atoi b [] = 0 := by
    simp [atoi, strtol_value, INT_MIN, INT_MAX]
  have hs := split_address_colon b host [] hne hcolon (by simp; omega)
  rw [hat, if_pos (by omega)] at hs
  simp only [stop_flows, hs, calls_of, List.filter_cons, List.filter_nil]
  exact ⟨trivial, trivial, by simp⟩

/-- C9 (witness): the address "badhost:". -/
theorem stop_flows_bare_colon_witness :
    ("badhost".toList ≠ [] ∧ ':' ∉ "badhost".toList ∧ "badhost".toList.length ≤ 949) ∧
      stop_flows sample_build .ok ("badhost".toList ++ [':']) =
        [.stderr ("Error, invalid port given: ".toList ++ ("badhost".toList ++ [':'])
          ++ "\n".toList)] :=
  ⟨by decide,
    (stop_flows_bare_colon sample_build .ok "badhost".toList (by decide) (by decide)
      (by decide)).2.1⟩

/-- C6: an address of more than 950 characters makes `stop_flows` report
"Address too long" and issue no remote call; and in a run of `main` whose
addresses are `pre`, the long address and `post`, the trace continues after that
report with the processing of every address of `post`. -/
theorem stop_flows_too_long (b : Build) (env : Nat → Rpc) (argv pre post : List CStr)
    (address : CStr) (hlen : 950 < address.length)
    (hargs : getopt_scan (argv.drop 1) = .inr (pre ++ address :: post)) :
    (∀ rpc, stop_flows b rpc address =
        [.stderr ("Address too long: ".toList ++ address ++ "\n".toList)] ∧
      calls_of (stop_flows b rpc address) = []) ∧
    (main b env argv).1 =
      stop_all b env 0 pre
        ++ .stderr ("Address too long: ".toList ++ address ++ "\n".toList)
          :: stop_all b env (pre.length + 1) post := by
  have hs := split_address_too_long b address hlen
  have ht : ∀ rpc, stop_flows b rpc address =
      [.stderr ("Address too long: ".toList ++ address ++ "\n".toList)] := by
    intro rpc
    simp only [stop_flows, hs]
  refine ⟨fun rpc => ⟨ht rpc, calls_of_none b rpc address (Or.inl ⟨_, hs⟩)⟩, ?_⟩
  rw [main_addresses b env argv _ hargs, stop_all_append]
  simp only [stop_all, ht, Nat.zero_add, List.singleton_append]

/-- C6 (witness): an address of 951 characters between "a:1" and "localhost". -/
theorem stop_flows_too_long_witness :
    (950 < (List.replicate 951 'x').length ∧
        getopt_scan (["flowgrind-stop".toList, "a:1".toList, List.replicate 951 'x',
            "localhost".toList].drop 1) =
          .inr (["a:1".toList] ++ List.replicate 951 'x' :: ["localhost".toList])) ∧
      (main sample_build (fun _ => .ok) ["flowgrind-stop".toList, "a:1".toList,
          List.replicate 951 'x', "localhost".toList]).1 =
        stop_all sample_build (fun _ => .ok) 0 ["a:1".toList]
          ++ .stderr ("Address too long: ".toList ++ List.replicate 951 'x' ++ "\n".toList)
            :: stop_all sample_build (fun _ => .ok) (["a:1".toList].length + 1)
                ["localhost".toList] :=
  ⟨⟨by rw [List.length_replicate]; decide, rfl⟩,
    (stop_flows_too_long sample_build (fun _ => .ok)
      ["flowgrind-stop".toList, "a:1".toList, List.replicate 951 'x', "localhost".toList]
      ["a:1".toList] ["localhost".toList] (List.replicate 951 'x')
      (by rw [List.length_replicate]; decide) rfl).2⟩

/-- C7: for every list of addresses and every outcome of the remote calls,
success or fault, `main` processes the addresses one at a time in command-line
order, its trace being the traces of `stop_flows` for each address in turn; the
stop calls an address receives depend on that address only, not on the outcome
of its own or any other call.  In particular with three well-formed addresses
where the second call faults, the first and the third each receive exactly one
stop call with flow id -1. -/
theorem main_fault_isolation (b : Build) (env : Nat → Rpc) (argv : List CStr)
    (a1 a2 a3 h1 h2 h3 : CStr) (p1 p2 p3 : Int) (f : Fault)
    (henv : ∀ i g, env i ≠ .create_fault g)
    (hargs : getopt_scan (argv.drop 1) = .inr [a1, a2, a3])
    (hs1 : split_address b a1 = .ok (h1, p1)) (hs2 : split_address b a2 = .ok (h2, p2))
    (hs3 : split_address b a3 = .ok (h3, p3))
    (he1 : env 1 = .call_fault f) :
    (∀ (env' : Nat → Rpc) (argv' addrs : List CStr),
        (∀ i g, env' i ≠ .create_fault g) →
        getopt_scan (argv'.drop 1) = .inr addrs →
        (main b env' argv').1 =
            (List.zipWith (fun i a => stop_flows b (env' i) a)
              (List.range' 0 addrs.length) addrs).flatten ∧
          calls_of (main b env' argv').1 =
            (addrs.map fun a => calls_of (stop_flows b .ok a)).flatten) ∧
      (∀ (rpc : Rpc) (a : CStr), (∀ g, rpc ≠ .create_fault g) →
        calls_of (stop_flows b rpc a) = calls_of (stop_flows b .ok a)) ∧
      (main b env argv).1 =
        stop_flows b (env 0) a1 ++ (stop_flows b (env 1) a2 ++ stop_flows b (env 2) a3) ∧
      calls_of (stop_flows b (env 0) a1) =
        [.call (sprintf_url h1 p1) "stop_flow".toList (-1)] ∧
      stop_flows b (env 1) a2 =
        [.stdout ("Stopping all flows on ".toList ++ sprintf_host b h2 p2 ++ "\n".toList),
         .call (sprintf_url h2 p2) "stop_flow".toList (-1),
         .stderr (could_not_stop (sprintf_host b h2 p2) f)] ∧
      calls_of (stop_flows b (env 2) a3) =
        [.call (sprintf_url h3 p3) "stop_flow".toList (-1)] ∧
      calls_of (main b env argv).1 =
        [.call (sprintf_url h1 p1) "stop_flow".toList (-1),
         .call (sprintf_url h2 p2) "stop_flow".toList (-1),
         .call (sprintf_url h3 p3) "stop_flow".toList (-1)] := by
  have c1 := calls_of_ok b (env 0) a1 h1 p1 hs1 (henv 0)
  have c2 := calls_of_ok b (env 1) a2 h2 p2 hs2 (henv 1)
  have c3 := calls_of_ok b (env 2) a3 h3 p3 hs3 (henv 2)
  have hm : (main b env argv).1 =
      stop_flows b (env 0) a1 ++ (stop_flows b (env 1) a2 ++ stop_flows b (env 2) a3) := by
    rw [main_addresses b env argv _ hargs]
    simp only [stop_all, List.append_nil]
  refine ⟨?_, ?_, hm, c1, ?_, c3, ?_⟩
  · intro env' argv' addrs henv' h
    rw [main_addresses b env' argv' addrs h]
    exact ⟨stop_all_join b env' 0 addrs, calls_of_stop_all b env' 0 addrs henv'⟩
  · intro rpc a hc
    exact calls_of_outcome b rpc a hc
  · simp only [stop_flows, hs2, he1, request]
  · rw [hm, calls_of_append, calls_of_append, c1, c2, c3]
    rfl

/-- C7 (witness): "10.0.0.1:9000", "host2:5999" and "example.org", the call to the
second one faulting. -/
theorem main_fault_isolation_witness :
    (getopt_scan (["flowgrind-stop".toList, "10.0.0.1:9000".toList, "host2:5999".toList,
          "example.org".toList].drop 1) =
        .inr ["10.0.0.1:9000".toList, "host2:5999".toList, "example.org".toList] ∧
      split_address sample_build "10.0.0.1:9000".toList = .ok ("10.0.0.1".toList, 9000) ∧
      split_address sample_build "host2:5999".toList = .ok ("host2".toList, 5999) ∧
      split_address sample_build "example.org".toList = .ok ("example.org".toList, 5999)) ∧
      calls_of (main sample_build
          (fun i => if i = 1 then Rpc.call_fault ⟨"Connection refused".toList, -504⟩
            else Rpc.ok)
          ["flowgrind-stop".toList, "10.0.0.1:9000".toList, "host2:5999".toList,
            "example.org".toList]).1 =
        [.call (sprintf_url "10.0.0.1".toList 9000) "stop_flow".toList (-1),
         .call (sprintf_url "host2".toList 5999) "stop_flow".toList (-1),
         .call (sprintf_url "example.org".toList 5999) "stop_flow".toList (-1)] :=
  ⟨⟨rfl, rfl, rfl, rfl⟩,
    (main_fault_isolation sample_build
      (fun i => if i = 1 then Rpc.call_fault ⟨"Connection refused".toList, -504⟩ else Rpc.ok)
      ["flowgrind-stop".toList, "10.0.0.1:9000".toList, "host2:5999".toList,
        "example.org".toList]
      "10.0.0.1:9000".toList "host2:5999".toList "example.org".toList
      "10.0.0.1".toList "host2".toList "example.org".toList 9000 5999 5999
      ⟨"Connection refused".toList, -504⟩
      (by intro i g; by_cases h : i = 1 <;> simp [h])
      rfl rfl rfl rfl rfl).2.2.2.2.2.2⟩

/-- C8: when `getopt_long` reports no unknown or malformed option, `main` ends
with the success status, whatever the addresses are and whatever the XML-RPC
library does. -/
theorem main_exit_success (b : Build) (env : Nat → Rpc) (argv : List CStr)
    (h : getopt_scan (argv.drop 1) ≠ .inl .unknown) :
    (main b env argv).2 = EXIT_SUCCESS := by
  unfold main
  cases hg : getopt_scan (argv.drop 1) with
  | inl o =>
    cases o with
    | h => rfl
    | v => rfl
    | unknown => exact absurd hg h
  | inr addrs => rfl

/-- C8 (witness): an empty host, an invalid port, a too long address and a
well-formed address for which creating the client faults. -/
theorem main_exit_success_witness :
    getopt_scan (["flowgrind-stop".toList, ":x".toList, "h:0".toList,
        List.replicate 951 'x', "a:1".toList].drop 1) ≠ .inl .unknown ∧
      (main sample_build (fun _ => .create_fault ⟨"Out of memory".toList, -500⟩)
        ["flowgrind-stop".toList, ":x".toList, "h:0".toList, List.replicate 951 'x',
          "a:1".toList]).2 = EXIT_SUCCESS :=
  have hscan : getopt_scan (["flowgrind-stop".toList, ":x".toList, "h:0".toList,
      List.replicate 951 'x', "a:1".toList].drop 1) =
      .inr [":x".toList, "h:0".toList, List.replicate 951 'x', "a:1".toList] := rfl
  ⟨fun e => Sum.noConfusion (hscan.symm.trans e),
    main_exit_success sample_build _ _ (fun e => Sum.noConfusion (hscan.symm.trans e))⟩

/-- C10: when `split_address` lets an address through, the address has at most
950 characters, the port is `DEFAULT_LISTEN_PORT` or lies in [1, 65535], and
the URL and the label, each with its terminating NUL, take fewer than 1000
characters, the size of the buffers `url` and `host`. -/
theorem buffers_fit (b : Build) (address host : CStr) (port : Int)
    (h : split_address b address = .ok (host, port)) :
    address.length ≤ 950 ∧
      (port = b.DEFAULT_LISTEN_PORT ∨ (1 ≤ port ∧ port ≤ 65535)) ∧
      (sprintf_url host port).length + 1 < 1000 ∧
      (sprintf_host b host port).length + 1 < 1000 := by
  obtain ⟨hlen, hcase⟩ := split_address_ok b address host port h
  have key : host.length ≤ 950 ∧ (fmt_d port).length ≤ 11 ∧
      (port = b.DEFAULT_LISTEN_PORT ∨ (1 ≤ port ∧ port ≤ 65535)) := by
    rcases hcase with ⟨_, rfl, rfl⟩ | ⟨ptxt, rfl, _, _, _, hp1, hp2⟩
    · exact ⟨hlen, fmt_d_length_int _ b.port_fits_int, Or.inl rfl⟩
    · refine ⟨?_, fmt_d_length_int _ ?_, Or.inr ⟨hp1, hp2⟩⟩
      · simp only [List.length_append, List.length_cons] at hlen
        omega
      · simp only [INT_MIN, INT_MAX]
        omega
  obtain ⟨k1, k2, k3⟩ := key
  have e1 : "http://".toList.length = 7 := rfl
  have e2 : ":".toList.length = 1 := rfl
  have e3 : "/RPC2".toList.length = 5 := rfl
  refine ⟨hlen, k3, ?_, ?_⟩
  · simp only [sprintf_url, List.length_append, e1, e2, e3]
    omega
  · cases hc : b.sprintf_clears_dest <;>
      simp only [sprintf_host, hc, List.length_append, e2, List.length_nil, if_true,
        if_false, Bool.false_eq_true] <;> omega

/-- C10 (witness): the address "127.2.3.4:5999". -/
theorem buffers_fit_witness :
    split_address sample_build "127.2.3.4:5999".toList = .ok ("127.2.3.4".toList, 5999) ∧
      (sprintf_url "127.2.3.4".toList 5999).length + 1 < 1000 ∧
      (sprintf_host sample_build "127.2.3.4".toList 5999).length + 1 < 1000 :=
  ⟨rfl, (buffers_fit sample_build "127.2.3.4:5999".toList "127.2.3.4".toList 5999 rfl).2.2⟩

end Flowgrind
